import Mathlib

/-!
Verification of the github-music sequencing engine.

Shallow embedding of the core sequencing and audio-mapping logic:
the useSequencer hook (mood/scale selection, block activity, chord-root
search, drum pattern, note selection, adaptive BPM, playback state
transitions) and the useAudioEngine hook (scale tables, velocity table,
note and chord resolution).

Sources: src/src/hooks/useSequencer.js and src/src/hooks/useAudioEngine.js.
JavaScript numbers that hold audio velocities and random rolls are
modelled as rationals; array indexing uses Option-returning access the
way out-of-bounds JavaScript indexing yields undefined.
-/

namespace GitMusic

/-- A single day cell of the contribution grid:
date string, quantized level 0..4, raw contribution count. -/
structure Day where
  date : String
  level : Nat
  count : Nat
  deriving DecidableEq, Repr

/-- One week column: seven day cells. -/
structure Week where
  days : List Day
  deriving DecidableEq, Repr

/-- The activity grid: weeks oldest first. -/
structure Grid where
  weeks : List Week
  deriving DecidableEq, Repr

/-- Wellformedness from the data model: every level is in 0..4. -/
def Grid.WF (g : Grid) : Prop :=
  ∀ w ∈ g.weeks, ∀ d ∈ w.days, d.level ≤ 4

instance : DecidablePred Grid.WF := fun g =>
  inferInstanceAs (Decidable (∀ w ∈ g.weeks, ∀ d ∈ w.days, d.level ≤ 4))

/-- Events dispatched to the sound-trigger contract during a column visit. -/
inductive Event where
  | chord (scaleType : String) (rootIndex : Nat)
  | kick
  | snare
  | hihat (velocity : ℚ)
  | note (scaleType : String) (dayIndex : Nat) (level : Nat)
  deriving DecidableEq, Repr

/-! Embedding of useSequencer.js. -/

/-- Source useSequencer.js getScaleForActivity: thresholded scale/mood choice. -/
def getScaleForActivity (activity : Nat) : String × String :=
  if activity > 50 then ("phrygianDom", "Intense (Extreme)")
  else if activity > 30 then ("dorian", "Focus (High)")
  else if activity > 10 then ("lydian", "Dreamy (Med)")
  else ("pentatonic", "Zen (Low)")

/-- Sum of levels over one week, the inner forEach of getBlockActivity. -/
def weekActivity (w : Week) : Nat :=
  (w.days.map Day.level).sum

/-- Source useSequencer.js getBlockActivity: sum of levels over the 4-week
block that starts at floor(colIndex/4)*4, missing weeks contributing 0. -/
def getBlockActivity (data : Grid) (colIndex : Nat) : Nat :=
  let blockStart := colIndex / 4 * 4
  ((List.range 4).map (fun i =>
    match data.weeks[blockStart + i]? with
    | some w => weekActivity w
    | none => 0)).sum

/-- One step of the findChordRoot scan: state is (foundRootIndex, maxLevel),
updated when the day level is above 2 and strictly above the current max. -/
def chordStep (st : Nat × Int) (p : Nat × Day) : Nat × Int :=
  if 2 < p.2.level ∧ st.2 < (p.2.level : Int) then (p.1, (p.2.level : Int)) else st

/-- The enumerated days of week colIndex + i, or the empty list when that
week is missing; this is the body of the findChordRoot outer loop. -/
def weekEntries (data : Grid) (colIndex i : Nat) : List (Nat × Day) :=
  match data.weeks[colIndex + i]? with
  | some w => w.days.enum
  | none => []

/-- Source useSequencer.js findChordRoot: scan the window of weeks
[colIndex, colIndex+4), days in order, tracking the day index of the
strictly-highest level among days with level above 2, starting from (0, -1). -/
def findChordRoot (data : Grid) (colIndex : Nat) : Nat :=
  ((List.range 4).foldl
    (fun st i => (weekEntries data colIndex i).foldl chordStep st)
    ((0 : Nat), (-1 : Int))).1

/-- The flattened scan order of the findChordRoot window. -/
def chordWindow (data : Grid) (colIndex : Nat) : List (Nat × Day) :=
  ((List.range 4).map (weekEntries data colIndex)).flatten

/-- Modelled from the spec: the chord root described in words — the
day index of the first-seen day achieving the maximal level among days
of the window with level above 2, and 0 when no such day exists. -/
def chordRootSpec (data : Grid) (colIndex : Nat) : Nat :=
  let w := chordWindow data colIndex
  let qs := w.filter (fun p => decide (2 < p.2.level))
  if qs.isEmpty then 0
  else
    let m := (qs.map (fun p => p.2.level)).foldr max 0
    match w.find? (fun p => p.2.level == m) with
    | some p => p.1
    | none => 0

/-- Source useSequencer.js adaptive BPM: total contribution count of the grid. -/
def totalContribs (data : Grid) : Nat :=
  (data.weeks.map (fun w => (w.days.map Day.count).sum)).sum

/-- Source useSequencer.js adaptive BPM:
min(110, max(80, 80 + floor(totalContribs / 50))). -/
def calculatedBpm (data : Grid) : Nat :=
  min 110 (max 80 (80 + totalContribs data / 50))

/-- Source useSequencer.js drum logic at one column visit, as the list of
drum events for the given beat (colIndex mod 4) and block activity. -/
def drumEvents (beat blockActivity : Nat) : List Event :=
  let isBusy := blockActivity > 15
  let isMedium := blockActivity > 5
  if beat = 0 then [Event.kick]
  else if beat = 2 ∧ isMedium then [Event.snare]
  else if isBusy then [Event.hihat (mkRat 3 10)]
  else if isMedium ∧ (beat = 1 ∨ beat = 3) then [Event.hihat (mkRat 1 5)]
  else []

/-- The active days of the column: enumerated day cells with level above 0,
the activeDays list of the melody logic. -/
def activeDaysOf (data : Grid) (colIndex : Nat) : List (Nat × Day) :=
  match data.weeks[colIndex]? with
  | some w => w.days.enum.filter (fun p => decide (p.2.level > 0))
  | none => []

/-- One draw of the randomness consumed by the melody logic of a column
visit: the branch roll, the single-note pick, the shuffle produced by the
random-comparator sort, and the extra-note roll of the sparse-chord branch. -/
structure Rand where
  roll : ℚ
  pick : Nat
  shuffle : List (Nat × Day) → List (Nat × Day)
  extra : Nat

/-- What Math.random guarantees about one draw, relative to the active-day
list it is used on: the roll lies in [0,1), the pick is a valid index when
the list is nonempty, the sort emits a permutation, and the extra-note roll
is 0 or 1. -/
def Rand.WF (r : Rand) (l : List (Nat × Day)) : Prop :=
  0 ≤ r.roll ∧ r.roll < 1 ∧
  (l ≠ [] → r.pick < l.length) ∧
  (r.shuffle l).Perm l ∧
  r.extra < 2

/-- Source useSequencer.js melody selection: 40% single random note,
40% sparse chord of 2-3 shuffled notes, 20% cluster of up to 4. -/
def selectNotes (r : Rand) (activeDays : List (Nat × Day)) : List (Nat × Day) :=
  if r.roll < mkRat 2 5 then
    match activeDays[r.pick]? with
    | some x => [x]
    | none => []
  else if r.roll < mkRat 4 5 then
    (r.shuffle activeDays).take (2 + r.extra)
  else
    (r.shuffle activeDays).take 4

/-- The React state held by the useSequencer hook. -/
structure SeqState where
  isPlaying : Bool
  activeCol : Int
  activeNotes : List Nat
  scaleType : String
  currentPattern : String
  bpm : Nat
  autoScale : Bool
  deriving DecidableEq, Repr

/-- The useState initial values of the hook. -/
def initialState : SeqState :=
  { isPlaying := false
    activeCol := -1
    activeNotes := []
    scaleType := "pentatonic"
    currentPattern := "Zen"
    bpm := 80
    autoScale := true }

/-- Source useSequencer.js Tone.Sequence callback for one column visit:
returns the dispatched events in order (chord pad, drums, melody) and the
updated hook state. -/
def columnVisit (data : Grid) (s : SeqState) (colIndex : Nat) (r : Rand) :
    List Event × SeqState :=
  match data.weeks[colIndex]? with
  | none => ([], s)
  | some _week =>
    let beat := colIndex % 4
    let blockActivity := getBlockActivity data colIndex
    let chordEvents :=
      if colIndex % 4 = 0 then
        [Event.chord s.scaleType (findChordRoot data colIndex)]
      else []
    let s1 :=
      if s.autoScale = true ∧ beat = 0 then
        { s with scaleType := (getScaleForActivity blockActivity).1
                 currentPattern := (getScaleForActivity blockActivity).2 }
      else s
    let drums := drumEvents beat blockActivity
    let activeDays := activeDaysOf data colIndex
    let selected := if activeDays.length > 0 then selectNotes r activeDays else []
    let noteEvents := selected.map (fun p => Event.note s1.scaleType p.1 p.2.level)
    let s2 :=
      if activeDays.length > 0 then
        { s1 with activeCol := (colIndex : Int)
                  activeNotes := selected.map (fun p => p.1) }
      else s1
    (chordEvents ++ drums ++ noteEvents, s2)

/-- Source useSequencer.js play: no-op on an absent grid, otherwise set the
session BPM, mark playing, and schedule one visit per week index. -/
def play (data : Option Grid) (s : SeqState) : SeqState × List Nat :=
  match data with
  | none => (s, [])
  | some d =>
    ({ s with bpm := calculatedBpm d, isPlaying := true },
     List.range d.weeks.length)

/-- Source useSequencer.js stop: reset isPlaying, activeCol and activeNotes. -/
def stop (s : SeqState) : SeqState :=
  { s with isPlaying := false, activeCol := -1, activeNotes := [] }

/-- Source useSequencer.js changeScale: auto re-enables auto mood, any other
value pins the scale and disables auto mood. -/
def changeScale (value : String) (s : SeqState) : SeqState :=
  if value = "auto" then { s with autoScale := true }
  else { s with autoScale := false, scaleType := value }

/-! Embedding of useAudioEngine.js. -/

/-- Source useAudioEngine.js SCALES table. -/
def SCALES (scaleType : String) : Option (List String) :=
  if scaleType = "pentatonic" then some ["C4", "D4", "E4", "G4", "A4", "C5", "D5"]
  else if scaleType = "lydian" then some ["C4", "D4", "E4", "F#4", "G4", "A4", "B4"]
  else if scaleType = "dorian" then some ["C4", "D4", "Eb4", "F4", "G4", "A4", "Bb4"]
  else if scaleType = "phrygianDom" then some ["C4", "Db4", "E4", "F4", "G4", "Ab4", "Bb4"]
  else none

/-- Source useAudioEngine.js CHORD_ROOTS table. -/
def CHORD_ROOTS (scaleType : String) : Option (List String) :=
  if scaleType = "pentatonic" then some ["C3", "D3", "E3", "G3", "A3", "C4", "D4"]
  else if scaleType = "lydian" then some ["C3", "D3", "E3", "F#3", "G3", "A3", "B3"]
  else if scaleType = "dorian" then some ["C3", "D3", "Eb3", "F3", "G3", "A3", "Bb3"]
  else if scaleType = "phrygianDom" then some ["C3", "Db3", "E3", "F3", "G3", "Ab3", "Bb3"]
  else none

/-- Source useAudioEngine.js VELOCITIES table: 0, 0.5, 0.6, 0.7, 0.8. -/
def VELOCITIES : List ℚ := [0, mkRat 1 2, mkRat 3 5, mkRat 7 10, mkRat 4 5]

/-- SCALES lookup for identifiers whose JavaScript lookup result is an own
table entry or undefined, with the || fallback to the pentatonic scale;
the prototype-chain case of the lookup is modelled by scaleValue below. -/
def scaleFor (scaleType : String) : List String :=
  (SCALES scaleType).getD ["C4", "D4", "E4", "G4", "A4", "C5", "D5"]

/-- Source useAudioEngine.js playNote for identifiers whose scale lookup
is an own table entry or falls back to pentatonic: resolve the pitch at
(dayIndex + level) mod scale length and the velocity
VELOCITIES[level] || 0.5 (a zero or missing entry falls back to 0.5).
The full lookup, prototype chain included, is playNoteJs below. -/
def playNote (scaleType : String) (dayIndex level : Nat) : Option (String × ℚ) :=
  let scale := scaleFor scaleType
  let noteIndex := (dayIndex + level) % scale.length
  match scale[noteIndex]? with
  | some note =>
    let vel : ℚ :=
      match VELOCITIES[level]? with
      | some v => if v = 0 then mkRat 1 2 else v
      | none => mkRat 1 2
    some (note, vel)
  | none => none

/-- The string-keyed properties a plain JavaScript object literal inherits
from Object.prototype: property access on the scale tables at these keys
returns a truthy function (or, for the last accessor, an object), not
undefined. -/
def protoKeys : List String :=
  ["constructor", "hasOwnProperty", "isPrototypeOf", "propertyIsEnumerable",
   "toLocaleString", "toString", "valueOf", "__defineGetter__",
   "__defineSetter__", "__lookupGetter__", "__lookupSetter__", "__proto__"]

/-- A JavaScript property-access result on a scale table: an own-key pitch
array, a truthy member inherited from Object.prototype (a function or
object, never an array, with no numeric properties), or undefined. -/
inductive JsValue where
  | arr (pitches : List String)
  | protoMember
  | undefined
  deriving DecidableEq, Repr

/-- Source useAudioEngine.js SCALES[scaleType] as JavaScript evaluates it:
own keys give the pitch arrays, keys inherited from Object.prototype give
a truthy non-array member, and every other key gives undefined. -/
def scalesValue (k : String) : JsValue :=
  match SCALES k with
  | some l => .arr l
  | none => if k ∈ protoKeys then .protoMember else .undefined

/-- Source useAudioEngine.js CHORD_ROOTS[scaleType] as JavaScript
evaluates it, prototype chain included. -/
def chordRootsValue (k : String) : JsValue :=
  match CHORD_ROOTS k with
  | some l => .arr l
  | none => if k ∈ protoKeys then .protoMember else .undefined

/-- Source useAudioEngine.js SCALES[scaleType] || SCALES.pentatonic:
undefined is the only falsy lookup result, so only it triggers the
pentatonic fallback; a truthy inherited member is kept as is. -/
def scaleValue (k : String) : JsValue :=
  match scalesValue k with
  | .undefined => .arr ["C4", "D4", "E4", "G4", "A4", "C5", "D5"]
  | v => v

/-- Source useAudioEngine.js CHORD_ROOTS[scaleType] || CHORD_ROOTS.pentatonic
with the same truthiness rule. -/
def rootsValue (k : String) : JsValue :=
  match chordRootsValue k with
  | .undefined => .arr ["C3", "D3", "E3", "G3", "A3", "C4", "D4"]
  | v => v

/-- Source useAudioEngine.js velocity resolution
VELOCITIES[level] || 0.5 (a zero or missing entry falls back to 0.5). -/
def velocityOf (level : Nat) : ℚ :=
  match VELOCITIES[level]? with
  | some v => if v = 0 then mkRat 1 2 else v
  | none => mkRat 1 2

/-- Source useAudioEngine.js playNote under the full JavaScript lookup:
on a pitch array the pitch at (dayIndex + level) mod scale.length resolves;
on an inherited non-array member the index is (dayIndex + level) mod the
member's length property (NaN when that is 0 or undefined) and numeric
indexing yields undefined either way, so no pitch resolves. -/
def playNoteJs (scaleType : String) (dayIndex level : Nat) :
    Option (String × ℚ) :=
  match scaleValue scaleType with
  | .arr scale =>
    (scale[(dayIndex + level) % scale.length]?).map
      (fun note => (note, velocityOf level))
  | _ => none

/-- Source useAudioEngine.js playChord under the full JavaScript lookup:
root, third and fifth at rootIndex, rootIndex+2, rootIndex+4, each mod 7,
from the chord-root array; an inherited non-array member has no numeric
properties, so all three pitches are undefined. -/
def playChordJs (scaleType : String) (rootIndex : Nat) :
    Option (String × String × String) :=
  match rootsValue scaleType with
  | .arr roots =>
    match roots[rootIndex % 7]?, roots[(rootIndex + 2) % 7]?,
          roots[(rootIndex + 4) % 7]? with
    | some a, some b, some c => some (a, b, c)
    | _, _, _ => none
  | _ => none

/-! Concrete grids and random draws used by the scenario claims. -/

/-- A zero-activity day cell. -/
def zeroDay : Day := { date := "", level := 0, count := 0 }

/-- A week of seven zero-activity days. -/
def zeroWeek : Week := { days := List.replicate 7 zeroDay }

/-- The 52-week grid whose 364 day cells all have level 0 and count 0. -/
def zeroGrid : Grid := { weeks := List.replicate 52 zeroWeek }

/-- A week whose day 3 has level 4 and count 4, all other days zero. -/
def spikeWeek : Week :=
  { days := [zeroDay, zeroDay, zeroDay, { date := "", level := 4, count := 4 },
             zeroDay, zeroDay, zeroDay] }

/-- The 52-week grid that is all zero except week 10, day 3,
with level 4 and count 4. -/
def singleGrid : Grid :=
  { weeks := List.replicate 10 zeroWeek ++ [spikeWeek] ++ List.replicate 41 zeroWeek }

/-- A 52-week grid whose only activity is one day with count 50. -/
def bumpGrid : Grid :=
  { weeks := [{ days := [{ date := "", level := 4, count := 50 }] ++
                        List.replicate 6 zeroDay }] ++ List.replicate 51 zeroWeek }

/-- One concrete random draw: roll 0 (single-note branch), pick 0,
identity shuffle, extra 0. -/
def r0 : Rand := { roll := 0, pick := 0, shuffle := id, extra := 0 }

/-! Helper lemmas. -/

/-- A list of zeros sums to zero. -/
theorem sum_zero_of_all_zero {l : List Nat} (h : ∀ x ∈ l, x = 0) : l.sum = 0 := by
  induction l with
  | nil => rfl
  | cons a t ih =>
    rw [List.sum_cons, h a (List.mem_cons_self a t),
      ih fun x hx => h x (List.mem_cons_of_mem a hx)]

/-- Every scale table entry has seven pitches, including the fallback. -/
theorem scaleFor_length (sc : String) : (scaleFor sc).length = 7 := by
  unfold scaleFor SCALES
  split_ifs <;> rfl

/-! Claim theorems. -/

/-- Claim C1 counterexample: after the concrete history of pinning the
dorian scale and playing a grid with 50 total contributions, stop leaves
the scale at dorian and the tempo at 81, not at the initial pentatonic/80. -/
theorem stop_keeps_scale_and_tempo_cex :
    (stop (play (some bumpGrid) (changeScale "dorian" initialState)).1).scaleType
      = "dorian" ∧
    (stop (play (some bumpGrid) (changeScale "dorian" initialState)).1).bpm = 81 ∧
    initialState.scaleType = "pentatonic" ∧ initialState.bpm = 80 := by
  refine ⟨rfl, ?_, rfl, rfl⟩
  decide

/-- Claim C1 (amended): stop resets isPlaying to false, the column index
to -1 and the active-note set to empty, but leaves the active scale, the
mood label, the tempo and the auto-scale flag unchanged. -/
theorem stop_resets_only_playback_fields (s : SeqState) :
    (stop s).isPlaying = false ∧ (stop s).activeCol = -1 ∧
    (stop s).activeNotes = [] ∧
    (stop s).scaleType = s.scaleType ∧
    (stop s).currentPattern = s.currentPattern ∧
    (stop s).bpm = s.bpm ∧ (stop s).autoScale = s.autoScale :=
  ⟨rfl, rfl, rfl, rfl, rfl, rfl, rfl⟩

/-- Claim C3: the mood selector returns the intense tier iff the block sum
exceeds 50, the focused tier iff it is in (30, 50], the dreamy tier iff it
is in (10, 30], and the calm tier iff it is at most 10; and the block sum
is the clipped 4-week sum of levels starting at floor(colIndex/4)*4. -/
theorem getScaleForActivity_tiers (a : Nat) :
    (getScaleForActivity a = ("phrygianDom", "Intense (Extreme)") ↔ 50 < a) ∧
    (getScaleForActivity a = ("dorian", "Focus (High)") ↔ 30 < a ∧ a ≤ 50) ∧
    (getScaleForActivity a = ("lydian", "Dreamy (Med)") ↔ 10 < a ∧ a ≤ 30) ∧
    (getScaleForActivity a = ("pentatonic", "Zen (Low)") ↔ a ≤ 10) ∧
    (∀ data c, getBlockActivity data c =
      ((List.range 4).map (fun i =>
        match data.weeks[c / 4 * 4 + i]? with
        | some w => (w.days.map Day.level).sum
        | none => 0)).sum) := by
  refine ⟨?_, ?_, ?_, ?_, fun data c => rfl⟩ <;>
    · unfold getScaleForActivity
      split_ifs with h1 h2 h3 <;> simp +decide [Prod.ext_iff] <;> omega

/-- Claim C5: the session tempo is min(110, max(80, 80 + totalCount/50)),
monotone in the total count, bounded to [80, 110], and exactly 80 on an
all-zero-count grid. -/
theorem calculatedBpm_props (d1 d2 : Grid)
    (h : totalContribs d1 ≤ totalContribs d2) :
    calculatedBpm d1 = min 110 (max 80 (80 + totalContribs d1 / 50)) ∧
    calculatedBpm d1 ≤ calculatedBpm d2 ∧
    80 ≤ calculatedBpm d1 ∧ calculatedBpm d1 ≤ 110 ∧
    ((∀ w ∈ d1.weeks, ∀ day ∈ w.days, day.count = 0) → calculatedBpm d1 = 80) := by
  refine ⟨rfl, ?_, ?_, ?_, ?_⟩
  · have hdiv : totalContribs d1 / 50 ≤ totalContribs d2 / 50 :=
      Nat.div_le_div_right h
    unfold calculatedBpm
    omega
  · unfold calculatedBpm; omega
  · unfold calculatedBpm; omega
  · intro hz
    have hcount : totalContribs d1 = 0 := by
      unfold totalContribs
      refine sum_zero_of_all_zero fun x hx => ?_
      obtain ⟨w, hw, rfl⟩ := List.mem_map.mp hx
      refine sum_zero_of_all_zero fun y hy => ?_
      obtain ⟨dd, hd, rfl⟩ := List.mem_map.mp hy
      exact hz w hw dd hd
    unfold calculatedBpm
    rw [hcount]
    decide

/-- Claim C5 witness: the all-zero grid against the 50-count grid. -/
theorem calculatedBpm_props_witness :
    totalContribs zeroGrid ≤ totalContribs bumpGrid ∧
    calculatedBpm zeroGrid ≤ calculatedBpm bumpGrid ∧
    calculatedBpm zeroGrid = 80 :=
  ⟨by decide, (calculatedBpm_props zeroGrid bumpGrid (by decide)).2.1,
    (calculatedBpm_props zeroGrid bumpGrid (by decide)).2.2.2.2
      (by decide)⟩

/-- Claim C6 counterexample: at beat 1 with block activity 0 the drum logic
triggers nothing at all, though the claim promises a hi-hat at beat 1. -/
theorem drum_hihat_beats13_cex :
    drumEvents 1 0 = [] ∧ (1 : Nat) % 4 = 1 := by decide

/-- Claim C6 (amended): a hi-hat fires exactly at beats 1 and 3 and only
when the block is at least medium (sum above 5): at velocity 0.3 when busy
(sum above 15), at velocity 0.2 when merely medium; the busy hi-hat is
louder than the medium one. -/
theorem drum_hihat_amended (beat ba : Nat) (h : beat < 4) :
    ((∃ v, Event.hihat v ∈ drumEvents beat ba) ↔ ((beat = 1 ∨ beat = 3) ∧ 5 < ba)) ∧
    (Event.hihat (3/10) ∈ drumEvents beat ba ↔ ((beat = 1 ∨ beat = 3) ∧ 15 < ba)) ∧
    (Event.hihat (1/5) ∈ drumEvents beat ba ↔
      ((beat = 1 ∨ beat = 3) ∧ 5 < ba ∧ ba ≤ 15)) ∧
    (1 : ℚ)/5 < 3/10 := by
  interval_cases beat <;>
    · by_cases h15 : 15 < ba <;> by_cases h5 : 5 < ba <;>
        (simp +decide [drumEvents, h15, h5] <;> norm_num) <;> omega

/-- Claim C6 witness: beat 1 with block activity 20 fires the busy hi-hat. -/
theorem drum_hihat_amended_witness :
    (1 : Nat) < 4 ∧ Event.hihat (3/10) ∈ drumEvents 1 20 :=
  ⟨by decide, (drum_hihat_amended 1 20 (by decide)).2.1.mpr (by decide)⟩

/-- Indexing into the all-zero grid. -/
theorem zeroGrid_get (k : Nat) :
    zeroGrid.weeks[k]? = if k < 52 then some zeroWeek else none := by
  show (List.replicate 52 zeroWeek)[k]? = _
  exact List.getElem?_replicate

/-- Every block of the all-zero grid sums to zero. -/
theorem getBlockActivity_zero (c : Nat) : getBlockActivity zeroGrid c = 0 := by
  unfold getBlockActivity
  refine sum_zero_of_all_zero fun x hx => ?_
  obtain ⟨i, _, rfl⟩ := List.mem_map.mp hx
  rw [zeroGrid_get]
  split_ifs <;> rfl

/-- The chord scan over a week of the all-zero grid leaves its state fixed. -/
theorem weekEntries_zero_fold (c i : Nat) (st : Nat × Int) :
    (weekEntries zeroGrid c i).foldl chordStep st = st := by
  unfold weekEntries
  rw [zeroGrid_get]
  split_ifs with h
  · show zeroWeek.days.enum.foldl chordStep st = st
    rfl
  · rfl

/-- The chord-root finder returns 0 on the all-zero grid. -/
theorem findChordRoot_zero (c : Nat) : findChordRoot zeroGrid c = 0 := by
  unfold findChordRoot
  rw [show List.range 4 = [0, 1, 2, 3] from rfl]
  simp only [List.foldl_cons, List.foldl_nil, weekEntries_zero_fold]

/-- Claim C2 counterexample: on the all-zero grid, column 0 does trigger a
chord (root index 0) alongside the kick, though the claim promises zero
chord triggers. -/
theorem zero_grid_chord_cex :
    Event.chord "pentatonic" 0 ∈ (columnVisit zeroGrid initialState 0 r0).1 ∧
    calculatedBpm zeroGrid = 80 := by decide

/-- Claim C2 (amended): on the all-zero grid the tempo is 80, every block
sum is 0 (so isMedium and isBusy are false), and a column visit emits
exactly a chord with root index 0 plus a kick at columns with index mod 4
equal to 0, and nothing at all elsewhere: no notes, no snares, no hi-hats. -/
theorem zero_grid_session (c : Nat) (s : SeqState) (r : Rand) (h : c < 52) :
    calculatedBpm zeroGrid = 80 ∧
    getBlockActivity zeroGrid c = 0 ∧
    (columnVisit zeroGrid s c r).1 =
      (if c % 4 = 0 then [Event.chord s.scaleType 0, Event.kick] else []) := by
  refine ⟨by decide, getBlockActivity_zero c, ?_⟩
  unfold columnVisit
  rw [zeroGrid_get, if_pos h]
  have hact : activeDaysOf zeroGrid c = [] := by
    unfold activeDaysOf
    rw [zeroGrid_get, if_pos h]
    rfl
  by_cases hc4 : c % 4 = 0 <;>
    simp [hc4, hact, findChordRoot_zero, getBlockActivity_zero, drumEvents]

/-- Claim C2 witness: columns 4 and 5 of the all-zero grid. -/
theorem zero_grid_session_witness :
    (4 : Nat) < 52 ∧
    (columnVisit zeroGrid initialState 4 r0).1 =
      [Event.chord "pentatonic" 0, Event.kick] ∧
    (5 : Nat) < 52 ∧
    (columnVisit zeroGrid initialState 5 r0).1 = [] := by
  refine ⟨by decide, ?_, by decide, ?_⟩
  · have h := (zero_grid_session 4 initialState r0 (by decide)).2.2
    simpa using h
  · have h := (zero_grid_session 5 initialState r0 (by decide)).2.2
    simpa using h

/-- Whatever the random draw, the selected notes come from the active days. -/
theorem selectNotes_subset (r : Rand) (l : List (Nat × Day))
    (hr : Rand.WF r l) : ∀ x ∈ selectNotes r l, x ∈ l := by
  obtain ⟨_, _, hpick, hperm, _⟩ := hr
  intro x hx
  unfold selectNotes at hx
  split_ifs at hx with h1 h2
  · cases hp : l[r.pick]? with
    | none => rw [hp] at hx; cases hx
    | some y =>
      rw [hp] at hx
      rcases List.mem_singleton.mp hx with rfl
      exact List.getElem?_mem hp
  · exact hperm.mem_iff.mp (List.mem_of_mem_take hx)
  · exact hperm.mem_iff.mp (List.mem_of_mem_take hx)

/-- No drum event is a note event. -/
theorem note_not_in_drumEvents (b ba : Nat) (sc : String) (i lv : Nat) :
    Event.note sc i lv ∉ drumEvents b ba := by
  simp only [drumEvents]
  split_ifs <;> simp

/-- A note event of a column visit comes from an active day of the column. -/
theorem note_event_inv (data : Grid) (s : SeqState) (c : Nat) (r : Rand)
    (hr : Rand.WF r (activeDaysOf data c)) (sc : String) (i lv : Nat)
    (hmem : Event.note sc i lv ∈ (columnVisit data s c r).1) :
    ∃ p ∈ activeDaysOf data c, p.1 = i ∧ p.2.level = lv := by
  unfold columnVisit at hmem
  cases hw : data.weeks[c]? with
  | none => rw [hw] at hmem; cases hmem
  | some w =>
    rw [hw] at hmem
    simp only [List.mem_append] at hmem
    rcases hmem with (hc | hd) | hn
    · exfalso; revert hc; split_ifs <;> simp
    · exact absurd hd (note_not_in_drumEvents _ _ _ _ _)
    · obtain ⟨p, hp, heq⟩ := List.mem_map.mp hn
      injection heq with _ h2 h3
      refine ⟨p, ?_, h2, h3⟩
      revert hp
      split_ifs with hlen
      · exact fun hp => selectNotes_subset r _ ⟨hr.1, hr.2.1, hr.2.2.1, hr.2.2.2.1, hr.2.2.2.2⟩ p hp
      · intro hp; cases hp

/-- Membership in the active-day list gives the day cell at that index
with a positive level. -/
theorem activeDaysOf_mem (data : Grid) (c : Nat) (p : Nat × Day)
    (hp : p ∈ activeDaysOf data c) :
    ∃ w, data.weeks[c]? = some w ∧ w.days[p.1]? = some p.2 ∧ 0 < p.2.level := by
  unfold activeDaysOf at hp
  cases hw : data.weeks[c]? with
  | none => rw [hw] at hp; cases hp
  | some w =>
    rw [hw] at hp
    obtain ⟨henum, hlvl⟩ := List.mem_filter.mp hp
    exact ⟨w, rfl, List.mem_enum_iff_getElem?.mp henum, by simpa using hlvl⟩

/-- Claim C7: for every column and every random outcome, a dispatched note
comes from a day with positive level, its pitch is the active scale entry
at index (dayIndex + level) mod 7, and its velocity is the VELOCITIES
entry at the day's level. -/
theorem note_events_sound (data : Grid) (s : SeqState) (c : Nat) (r : Rand)
    (hwf : Grid.WF data) (hr : Rand.WF r (activeDaysOf data c))
    (sc : String) (i lv : Nat)
    (hmem : Event.note sc i lv ∈ (columnVisit data s c r).1) :
    0 < lv ∧
    (∃ w, data.weeks[c]? = some w ∧ ∃ d, w.days[i]? = some d ∧ d.level = lv) ∧
    (∃ pitch vel, playNote sc i lv = some (pitch, vel) ∧
      (scaleFor sc)[(i + lv) % 7]? = some pitch ∧
      VELOCITIES[lv]? = some vel) := by
  obtain ⟨p, hpA, hpi, hplv⟩ := note_event_inv data s c r hr sc i lv hmem
  obtain ⟨w, hw, hd, hpos⟩ := activeDaysOf_mem data c p hpA
  have hle4 : p.2.level ≤ 4 :=
    hwf w (List.getElem?_mem hw) p.2 (List.getElem?_mem hd)
  subst hpi hplv
  refine ⟨hpos, ⟨w, hw, p.2, hd, rfl⟩, ?_⟩
  have hlt : (p.1 + p.2.level) % 7 < 7 := Nat.mod_lt _ (by norm_num)
  obtain ⟨pitch, hpitch⟩ : ∃ x, (scaleFor sc)[(p.1 + p.2.level) % 7]? = some x := by
    rw [List.getElem?_eq_getElem (by rw [scaleFor_length]; exact hlt)]
    exact ⟨_, rfl⟩
  obtain ⟨vel, hvelsome⟩ : ∃ v, VELOCITIES[p.2.level]? = some v := by
    rw [List.getElem?_eq_getElem
      (show p.2.level < VELOCITIES.length by simp [VELOCITIES]; omega)]
    exact ⟨_, rfl⟩
  have hvne : ¬ vel = 0 := by
    have h1 : 1 ≤ p.2.level := hpos
    interval_cases h : p.2.level <;>
      (simp [VELOCITIES] at hvelsome; simp [← hvelsome])
  refine ⟨pitch, vel, ?_, hpitch, hvelsome⟩
  simp only [playNote]
  have hidx : (p.1 + p.2.level) % (scaleFor sc).length = (p.1 + p.2.level) % 7 := by
    rw [scaleFor_length]
  rw [hidx, hpitch, hvelsome]
  simp [hvne]

/-- Claim C7 witness: the spike grid at column 10 with the concrete draw. -/
theorem note_events_sound_witness :
    Grid.WF singleGrid ∧
    Event.note "pentatonic" 3 4 ∈ (columnVisit singleGrid initialState 10 r0).1 ∧
    (0 < 4 ∧
      (∃ w, singleGrid.weeks[10]? = some w ∧ ∃ d, w.days[3]? = some d ∧ d.level = 4) ∧
      (∃ pitch vel, playNote "pentatonic" 3 4 = some (pitch, vel) ∧
        (scaleFor "pentatonic")[(3 + 4) % 7]? = some pitch ∧
        VELOCITIES[4]? = some vel)) :=
  ⟨by decide, by decide,
    note_events_sound singleGrid initialState 10 r0 (by decide)
      ⟨by norm_num [r0], by norm_num [r0], fun _ => by decide, List.Perm.refl _,
        by norm_num [r0]⟩
      "pentatonic" 3 4 (by decide)⟩

/-- The event list of a column visit, written without local state. -/
theorem columnVisit_events (data : Grid) (s : SeqState) (c : Nat) (r : Rand)
    (w : Week) (hw : data.weeks[c]? = some w) :
    (columnVisit data s c r).1 =
      (if c % 4 = 0 then [Event.chord s.scaleType (findChordRoot data c)] else []) ++
      drumEvents (c % 4) (getBlockActivity data c) ++
      (if 0 < (activeDaysOf data c).length then selectNotes r (activeDaysOf data c)
        else []).map (fun p =>
          Event.note (if s.autoScale = true ∧ c % 4 = 0
            then (getScaleForActivity (getBlockActivity data c)).1
            else s.scaleType) p.1 p.2.level) := by
  unfold columnVisit
  rw [hw]
  by_cases hm : s.autoScale = true ∧ c % 4 = 0 <;> simp [hm]

/-- With a single active day, every random outcome selects exactly it. -/
theorem selectNotes_singleton (r : Rand) (x : Nat × Day)
    (hr : Rand.WF r [x]) : selectNotes r [x] = [x] := by
  obtain ⟨_, _, hpick, hperm, _⟩ := hr
  unfold selectNotes
  split_ifs with h1 h2
  · have hp0 : r.pick = 0 := by
      have h1 := hpick (by simp)
      simp at h1
      omega
    rw [hp0]
    rfl
  · rw [List.perm_singleton.mp hperm]
    exact List.take_of_length_le (by simp only [List.length_singleton]; omega)
  · rw [List.perm_singleton.mp hperm]
    exact List.take_of_length_le (by simp only [List.length_singleton]; omega)

/-- Claim C8: on the grid with a single level-4 count-4 day at week 10,
day 3: the tempo is 80, every block of the first 52 columns sums to at
most 4 and keeps the Zen mood, every random outcome at column 10 dispatches
the day-3 note, its melodic index is (3+4) mod 7 = 0, and it resolves to
the first pentatonic pitch at velocity 0.8. -/
theorem single_grid_scenario :
    calculatedBpm singleGrid = 80 ∧
    (∀ c, c < 52 → getBlockActivity singleGrid c ≤ 4 ∧
      getScaleForActivity (getBlockActivity singleGrid c) = ("pentatonic", "Zen (Low)")) ∧
    (∀ s r, Rand.WF r (activeDaysOf singleGrid 10) →
      Event.note s.scaleType 3 4 ∈ (columnVisit singleGrid s 10 r).1) ∧
    (3 + 4) % 7 = 0 ∧
    playNote "pentatonic" 3 4 = some ("C4", 4/5) := by
  have h45 : (4 : ℚ)/5 = mkRat 4 5 := by norm_num [Rat.mkRat_eq_div]
  refine ⟨by decide, by decide, ?_, by decide, by rw [h45]; decide⟩
  intro s r hr
  have hact : activeDaysOf singleGrid 10 = [(3, { date := "", level := 4, count := 4 })] := by
    decide
  have hw : singleGrid.weeks[10]? = some spikeWeek := by decide
  have hmood : ¬(s.autoScale = true ∧ 10 % 4 = 0) := by
    rintro ⟨-, h⟩
    norm_num at h
  rw [hact] at hr
  have h104 : ¬((10 : Nat) % 4 = 0) := by decide
  have hdr : drumEvents (10 % 4) (getBlockActivity singleGrid 10) = [] := by decide
  rw [columnVisit_events singleGrid s 10 r spikeWeek hw, hact]
  simp [h104, hdr, selectNotes_singleton r _ hr, hmood]

/-- Claim C8 witness: the concrete draw at column 10. -/
theorem single_grid_scenario_witness :
    (10 : Nat) < 52 ∧ getBlockActivity singleGrid 10 ≤ 4 ∧
    Event.note "pentatonic" 3 4 ∈ (columnVisit singleGrid initialState 10 r0).1 :=
  ⟨by decide, (single_grid_scenario.2.1 10 (by decide)).1,
    single_grid_scenario.2.2.1 initialState r0
      ⟨by norm_num [r0], by norm_num [r0], fun _ => by decide, List.Perm.refl _,
        by norm_num [r0]⟩⟩

/-- Every member is at most the foldr max. -/
theorem le_foldr_max (l : List Nat) (x : Nat) (hx : x ∈ l) :
    x ≤ l.foldr max 0 := by
  induction l with
  | nil => cases hx
  | cons a t ih =>
    rcases List.mem_cons.mp hx with rfl | h
    · exact le_max_left _ _
    · exact le_trans (ih h) (le_max_right _ _)

/-- The foldr max is at most any common bound. -/
theorem foldr_max_le (l : List Nat) (c : Nat) (h : ∀ x ∈ l, x ≤ c) :
    l.foldr max 0 ≤ c := by
  induction l with
  | nil => exact Nat.zero_le c
  | cons a t ih =>
    exact max_le (h a (List.mem_cons_self a t))
      (ih fun x hx => h x (List.mem_cons_of_mem a hx))

/-- The foldr max of a nonempty list of positive numbers is a member. -/
theorem foldr_max_mem (l : List Nat) (hne : l ≠ []) (hpos : ∀ x ∈ l, 0 < x) :
    l.foldr max 0 ∈ l := by
  induction l with
  | nil => exact absurd rfl hne
  | cons a t ih =>
    show max a (t.foldr max 0) ∈ a :: t
    rcases eq_or_ne t [] with rfl | ht
    · simp
    · rcases le_total (t.foldr max 0) a with h | h
      · rw [max_eq_left h]; exact List.mem_cons_self a t
      · rw [max_eq_right h]
        exact List.mem_cons_of_mem a
          (ih ht fun x hx => hpos x (List.mem_cons_of_mem a hx))

/-- Folding max from an arbitrary seed. -/
theorem foldr_max_init (l : List Nat) (c : Nat) :
    l.foldr max c = max (l.foldr max 0) c := by
  induction l with
  | nil => simp
  | cons a t ih =>
    show max a (t.foldr max c) = max (max a (t.foldr max 0)) c
    rw [ih, Nat.max_assoc]

/-- The state reached by the findChordRoot scan over an arbitrary entry
list: the spec-side description with the initial state (0, -1). -/
def chordScan (l : List (Nat × Day)) : Nat × Int :=
  let qs := l.filter (fun p => decide (2 < p.2.level))
  if qs.isEmpty then (0, -1)
  else
    let m : Nat := (qs.map (fun p => p.2.level)).foldr max 0
    match l.find? (fun p => p.2.level == m) with
    | some q => (q.1, (m : Int))
    | none => (0, -1)

/-- The fold of chordStep from (0, -1) computes the first-seen argmax among
entries with level above 2, or stays at (0, -1). -/
theorem foldl_chordStep_eq (l : List (Nat × Day)) :
    l.foldl chordStep (0, -1) = chordScan l := by
  induction l using List.reverseRecOn with
  | nil => rfl
  | append_singleton l p ih =>
    rw [List.foldl_append, List.foldl_cons, List.foldl_nil, ih]
    by_cases hq : (l.filter (fun p => decide (2 < p.2.level))).isEmpty
    · have hscan : chordScan l = (0, -1) := by
        simp only [chordScan]
        rw [if_pos hq]
      have hempty : ∀ x ∈ l, ¬ (2 < x.2.level) := by
        intro x hx
        have := List.isEmpty_iff.mp hq
        have hmem := List.filter_eq_nil_iff.mp this x hx
        simpa using hmem
      rw [hscan]
      by_cases hp : 2 < p.2.level
      · have hneg : (-1 : Int) < (p.2.level : Int) := by omega
        have hstep : chordStep (0, -1) p = (p.1, (p.2.level : Int)) := by
          simp only [chordStep]
          rw [if_pos ⟨hp, hneg⟩]
        rw [hstep]
        simp only [chordScan, List.filter_append, List.isEmpty_iff.mp hq,
          List.nil_append]
        have hfp : List.filter (fun p => decide (2 < p.2.level)) [p] = [p] := by
          simp [hp]
        rw [hfp]
        rw [if_neg (by simp)]
        have hm : (([p].map (fun p => p.2.level)).foldr max 0) = p.2.level := by
          simp
        rw [hm]
        have hfl : l.find? (fun x => x.2.level == p.2.level) = none := by
          rw [List.find?_eq_none]
          intro x hx
          simp only [beq_iff_eq]
          intro hlv
          exact hempty x hx (hlv ▸ hp)
        rw [List.find?_append, hfl, Option.none_or]
        have : List.find? (fun x => x.2.level == p.2.level) [p] = some p := by
          simp
        rw [this]
      · have hstep : chordStep (0, -1) p = (0, -1) := by
          simp only [chordStep]
          rw [if_neg (by tauto)]
        rw [hstep]
        simp only [chordScan, List.filter_append, List.isEmpty_iff.mp hq,
          List.nil_append]
        have hfp : List.filter (fun q => decide (2 < q.2.level)) [p] = [] := by
          simp [hp]
        rw [hfp]
        simp
    · -- the filtered prefix is nonempty: the state is the first argmax of l
      have hqne : l.filter (fun p => decide (2 < p.2.level)) ≠ [] := by
        simpa [List.isEmpty_iff] using hq
      set qs := l.filter (fun p => decide (2 < p.2.level)) with hqs
      set m := (qs.map (fun p => p.2.level)).foldr max 0 with hmdef
      have hmmem : m ∈ qs.map (fun p => p.2.level) := by
        refine foldr_max_mem _ (by simpa using hqne) ?_
        intro x hx
        obtain ⟨y, hy, rfl⟩ := List.mem_map.mp hx
        have h2 := (List.mem_filter.mp hy).2
        simp at h2
        omega
      obtain ⟨q0, hq0qs, hq0lvl⟩ := List.mem_map.mp hmmem
      have hq0l : q0 ∈ l := (List.mem_filter.mp hq0qs).1
      have hm2 : 2 < m := by
        have h2 := (List.mem_filter.mp hq0qs).2
        simp at h2
        omega
      have hlel : ∀ x ∈ l, 2 < x.2.level → x.2.level ≤ m := by
        intro x hx h2
        exact le_foldr_max _ _
          (List.mem_map_of_mem _ (List.mem_filter.mpr ⟨hx, by simpa⟩))
      obtain ⟨q, hfq⟩ : ∃ q, l.find? (fun p => p.2.level == m) = some q :=
        Option.isSome_iff_exists.mp
          (List.find?_isSome.mpr ⟨q0, hq0l, by simp [hq0lvl]⟩)
      have hqlvl : q.2.level = m := by
        have := List.find?_some hfq
        simpa using this
      have hscan : chordScan l = (q.1, (m : Int)) := by
        simp only [chordScan]
        rw [if_neg hq, ← hqs, ← hmdef, hfq]
      rw [hscan]
      by_cases hp2 : 2 < p.2.level
      · by_cases hpm : m < p.2.level
        · have hstep : chordStep (q.1, (m : Int)) p = (p.1, (p.2.level : Int)) := by
            simp only [chordStep]
            rw [if_pos ⟨hp2, by omega⟩]
          rw [hstep]
          simp only [chordScan, List.filter_append]
          have hfp : List.filter (fun q => decide (2 < q.2.level)) [p] = [p] := by
            simp [hp2]
          rw [hfp]
          rw [if_neg (by simp)]
          have hm' : ((qs ++ [p]).map (fun p => p.2.level)).foldr max 0
              = p.2.level := by
            rw [List.map_append, List.foldr_append]
            show (qs.map (fun p => p.2.level)).foldr max (max p.2.level 0)
              = p.2.level
            rw [Nat.max_zero, foldr_max_init, ← hmdef]
            omega
          rw [hm']
          have hfl : l.find? (fun x => x.2.level == p.2.level) = none := by
            rw [List.find?_eq_none]
            intro x hx
            simp only [beq_iff_eq]
            intro hlv
            have := hlel x hx (hlv ▸ hp2)
            omega
          rw [List.find?_append, hfl, Option.none_or]
          have : List.find? (fun x => x.2.level == p.2.level) [p] = some p := by
            simp
          rw [this]
        · have hstep : chordStep (q.1, (m : Int)) p = (q.1, (m : Int)) := by
            simp only [chordStep]
            rw [if_neg (by intro hc; exact hpm (by omega))]
          rw [hstep]
          simp only [chordScan, List.filter_append]
          have hfp : List.filter (fun q => decide (2 < q.2.level)) [p] = [p] := by
            simp [hp2]
          rw [hfp]
          rw [if_neg (by simp)]
          have hm' : ((qs ++ [p]).map (fun p => p.2.level)).foldr max 0 = m := by
            rw [List.map_append, List.foldr_append]
            show (qs.map (fun p => p.2.level)).foldr max (max p.2.level 0) = m
            rw [Nat.max_zero, foldr_max_init, ← hmdef]
            omega
          rw [hm']
          rw [List.find?_append, hfq]
          rfl
      · have hstep : chordStep (q.1, (m : Int)) p = (q.1, (m : Int)) := by
          simp only [chordStep]
          rw [if_neg (by tauto)]
        rw [hstep]
        simp only [chordScan, List.filter_append]
        have hfp : List.filter (fun q => decide (2 < q.2.level)) [p] = [] := by
          simp [hp2]
        rw [hfp, List.append_nil, ← hqs]
        rw [if_neg (by simpa [List.isEmpty_iff] using hqne), ← hmdef]
        rw [List.find?_append, hfq]
        rfl

/-- Claim C4: the chord-root finder returns the day index of the first-seen
day achieving the maximal level among days with level above 2 in the
clipped window [i, i+4), and 0 when no such day exists: it equals the
spec-side chordRootSpec. -/
theorem findChordRoot_eq_chordRootSpec (data : Grid) (c : Nat) :
    findChordRoot data c = chordRootSpec data c := by
  have h1 : (List.range 4).foldl
      (fun st i => (weekEntries data c i).foldl chordStep st)
      ((0 : Nat), (-1 : Int))
      = (chordWindow data c).foldl chordStep (0, -1) := by
    unfold chordWindow
    rw [List.foldl_flatten, List.foldl_map]
  unfold findChordRoot
  rw [h1, foldl_chordStep_eq]
  simp only [chordScan, chordRootSpec]
  by_cases he : ((chordWindow data c).filter (fun p => decide (2 < p.2.level))).isEmpty
  · rw [if_pos he, if_pos he]
  · rw [if_neg he, if_neg he]
    cases hf : (chordWindow data c).find? (fun p =>
        p.2.level == (((chordWindow data c).filter
          (fun p => decide (2 < p.2.level))).map (fun p => p.2.level)).foldr max 0) with
    | none => rfl
    | some q => rfl

/-- Claim C9: starting playback with an absent grid is a silent no-op:
the state is unchanged and nothing is scheduled. -/
theorem play_absent_grid_noop (s : SeqState) : play none s = (s, []) := rfl

/-- Claim C10 counterexample: toString is not one of the four defined
identifiers, yet its lookup returns the truthy inherited prototype member,
the pentatonic fallback never fires, and neither playNote nor playChord
resolves a defined pitch at dayIndex 3, level 2, rootIndex 9. -/
theorem audio_engine_proto_cex :
    "toString" ≠ "pentatonic" ∧ "toString" ≠ "lydian" ∧
    "toString" ≠ "dorian" ∧ "toString" ≠ "phrygianDom" ∧
    scalesValue "toString" = JsValue.protoMember ∧
    scaleValue "toString" = JsValue.protoMember ∧
    playNoteJs "toString" 3 2 = none ∧
    playChordJs "toString" 9 = none := by decide

/-- Claim C10 (amended): playNote and playChord fall back to the pentatonic
tables and resolve defined pitches for every scale identifier that is
neither one of the four defined ones nor a key inherited from
Object.prototype; for an inherited key the truthy member suppresses the
fallback and no pitch resolves. -/
theorem audio_engine_total_amended (sc : String) (dayIndex level rootIndex : Nat)
    (h1 : sc ≠ "pentatonic") (h2 : sc ≠ "lydian") (h3 : sc ≠ "dorian")
    (h4 : sc ≠ "phrygianDom") :
    (sc ∉ protoKeys →
      scaleValue sc = JsValue.arr ["C4", "D4", "E4", "G4", "A4", "C5", "D5"] ∧
      rootsValue sc = JsValue.arr ["C3", "D3", "E3", "G3", "A3", "C4", "D4"] ∧
      (∃ p, playNoteJs sc dayIndex level = some p) ∧
      (∃ t, playChordJs sc rootIndex = some t)) ∧
    (sc ∈ protoKeys →
      playNoteJs sc dayIndex level = none ∧
      playChordJs sc rootIndex = none) := by
  have hS : SCALES sc = none := by
    unfold SCALES
    simp [h1, h2, h3, h4]
  have hC : CHORD_ROOTS sc = none := by
    unfold CHORD_ROOTS
    simp [h1, h2, h3, h4]
  constructor
  · intro hnp
    have hscale : scaleValue sc =
        JsValue.arr ["C4", "D4", "E4", "G4", "A4", "C5", "D5"] := by
      unfold scaleValue scalesValue
      rw [hS, if_neg hnp]
    have hroots : rootsValue sc =
        JsValue.arr ["C3", "D3", "E3", "G3", "A3", "C4", "D4"] := by
      unfold rootsValue chordRootsValue
      rw [hC, if_neg hnp]
    refine ⟨hscale, hroots, ?_, ?_⟩
    · simp only [playNoteJs, hscale]
      rw [List.getElem?_eq_getElem
        (show (dayIndex + level) %
            (["C4", "D4", "E4", "G4", "A4", "C5", "D5"] : List String).length <
            (["C4", "D4", "E4", "G4", "A4", "C5", "D5"] : List String).length
          from Nat.mod_lt _ (by decide))]
      exact ⟨_, rfl⟩
    · simp only [playChordJs, hroots]
      rw [List.getElem?_eq_getElem
          (show rootIndex % 7 <
              (["C3", "D3", "E3", "G3", "A3", "C4", "D4"] : List String).length
            from Nat.mod_lt _ (by decide)),
        List.getElem?_eq_getElem
          (show (rootIndex + 2) % 7 <
              (["C3", "D3", "E3", "G3", "A3", "C4", "D4"] : List String).length
            from Nat.mod_lt _ (by decide)),
        List.getElem?_eq_getElem
          (show (rootIndex + 4) % 7 <
              (["C3", "D3", "E3", "G3", "A3", "C4", "D4"] : List String).length
            from Nat.mod_lt _ (by decide))]
      exact ⟨_, rfl⟩
  · intro hp
    have hscale : scaleValue sc = JsValue.protoMember := by
      unfold scaleValue scalesValue
      rw [hS, if_pos hp]
    have hroots : rootsValue sc = JsValue.protoMember := by
      unfold rootsValue chordRootsValue
      rw [hC, if_pos hp]
    exact ⟨by simp [playNoteJs, hscale], by simp [playChordJs, hroots]⟩

/-- Claim C10 witness: the plain identifier x falls back and resolves,
while the inherited key toString resolves nothing. -/
theorem audio_engine_total_amended_witness :
    "x" ∉ protoKeys ∧ (∃ p, playNoteJs "x" 3 2 = some p) ∧
    "toString" ∈ protoKeys ∧ playNoteJs "toString" 3 2 = none ∧
    playChordJs "toString" 9 = none :=
  ⟨by decide,
    ((audio_engine_total_amended "x" 3 2 9 (by decide) (by decide) (by decide)
      (by decide)).1 (by decide)).2.2.1,
    by decide,
    ((audio_engine_total_amended "toString" 3 2 9 (by decide) (by decide)
      (by decide) (by decide)).2 (by decide)).1,
    ((audio_engine_total_amended "toString" 3 2 9 (by decide) (by decide)
      (by decide) (by decide)).2 (by decide)).2⟩

end GitMusic
